import Mathlib

/-!
Shallow embedding of `boolean_parser/mixins/sqla.py`: the SQLAlchemy adapter
that translates a parsed boolean condition tree into SQLAlchemy filter
predicates.  Python values coming from the upstream parser are strings; the
SQLAlchemy expression universe is modelled symbolically by inductive types.
-/

set_option autoImplicit false

namespace BooleanParser

/-- The Python type of a column, as returned by `field.type.python_type` in
`_bind_and_lower_value`.  `tString` stands for every non-numeric python type
(the `else` branch of `_format_value`); the numeric types are exactly
`float`, `int` and `decimal.Decimal` (the `ftypes` list in the source). -/
inductive PyType where
  | tFloat
  | tInt
  | tDecimal
  | tString
deriving DecidableEq, Repr

/-- A SQLAlchemy model class: its `__tablename__` and its instrumented
column attributes (name and python type).  `getattr(model, field_name)`
is lookup in `fields`. -/
structure Model where
  tablename : String
  fields : List (String × PyType)
deriving DecidableEq, Repr

/-- The instrumented attribute returned by `_get_field`: a column handle
carrying the owning table, the column name and the python type. -/
structure FieldH where
  table : String
  fname : String
  ftype : PyType
deriving DecidableEq, Repr

/-- A value after `_cast_value` / `_format_value`: `vFloat raw` is
`float(raw)`, `vInt raw` is `int(raw)`, `vStr raw` is the string passed
through unconverted.  The tag records the conversion target; no claim
inspects the numeric value itself, only whether and to what the literal
was converted, so the raw literal is kept. -/
inductive CastVal where
  | vFloat (raw : String)
  | vInt (raw : String)
  | vStr (raw : String)
deriving DecidableEq, Repr

/-- Symbolic SQLAlchemy column-level expressions produced while a leaf is
translated: a column, `func.lower(e)`, and `bindparam(name, value)`. -/
inductive BoundExpr where
  | col (table fname : String)
  | funcLower (e : BoundExpr)
  | bindparam (pname : String) (v : CastVal)
deriving DecidableEq, Repr

/-- The comparison operators of `opdict` (`operator.le`, `ge`, `gt`, `lt`,
`ne`, `eq`). -/
inductive CmpOp where
  | le
  | ge
  | gt
  | lt
  | ne
  | eq
deriving DecidableEq, Repr

/-- The `opdict` table mapping operator tokens to comparison operators
(line 26 of the source).  Note that nothing else in the adapter ever
consults this table. -/
def opdict : List (String × CmpOp) :=
  [("<=", .le), (">=", .ge), (">", .gt), ("<", .lt), ("!=", .ne), ("==", .eq), ("=", .eq)]

/-- The value a `filter` call returns.  `noneV` is Python's `None` (the
initial `condition` that `_filter_one` hands back unchanged); `cmpP` and
`betweenP` are the SQLAlchemy binary-expression forms that would express a
leaf comparison (`op(lower_field, lower_value)` / `between`), available in
the expression universe but never constructed by this adapter; `notP`,
`andP`, `orP` are `not_`, `and_`, `or_` applied to the children's results
in order. -/
inductive SQLPred where
  | noneV
  | cmpP (op : CmpOp) (lhs rhs : BoundExpr)
  | betweenP (e lo hi : BoundExpr)
  | notP (p : SQLPred)
  | andP (ps : List SQLPred)
  | orP (ps : List SQLPred)

/-- The Python exceptions the adapter can raise.  `unresolvedField t f`
and `badValue f d v` are the two `BooleanParserException` raise sites
(messages rendered by `PyErr.message`); `assertionError` is a plain
`assert` failure; `nameError v` is the `UnboundLocalError` on reading the
never-assigned local `v`. -/
inductive PyErr where
  | unresolvedField (table fname : String)
  | badValue (fname dtype value : String)
  | assertionError (msg : String)
  | nameError (varName : String)
deriving DecidableEq, Repr

/-- Whether the exception is a `BooleanParserException` (the typed parser
error of the spec), as opposed to a plain `AssertionError` or
`UnboundLocalError`. -/
def PyErr.isBooleanParserException : PyErr → Bool
  | .unresolvedField _ _ => true
  | .badValue _ _ _ => true
  | .assertionError _ => false
  | .nameError _ => false

/-- The message text each exception carries in the source. -/
def PyErr.message : PyErr → String
  | .unresolvedField t f => "Table " ++ t ++ " does not have field " ++ f
  | .badValue f d v =>
      "Field " ++ f ++ " expects a " ++ d ++ " value.  Received " ++ v ++ " instead."
  | .assertionError m => m
  | .nameError v => "local variable " ++ v ++ " referenced before assignment"

/-- A leaf condition as the upstream parser hands it to the mixin: field
name, optional dotted qualifier (`self.base`), operator token, literal
value, optional second value (range upper bound), and the parameter
binding name `self.bindname`. -/
structure Cond where
  name : String
  base : Option String
  op : String
  value : String
  value2 : Option String
  bindname : String
deriving DecidableEq, Repr

/-- Modelled from the spec: the `fullname` attribute of the upstream
`Condition` class (in `boolean_parser.conditions`, not part of this
adapter's source) — "the field's qualified name", i.e. the dotted
`base.name` when a qualifier is present, else the bare name. -/
def Cond.fullname (c : Cond) : String :=
  match c.base with
  | some b => b ++ "." ++ c.name
  | none => c.name

/-- Model of Python's built-in `int(str)` conversion, restricted to the
literal shapes the upstream parser can produce: an optional sign followed
by one or more decimal digits. -/
def stripSign : List Char → List Char
  | '+' :: rest => rest
  | '-' :: rest => rest
  | l => l

/-- True when Python's `int(s)` succeeds on the string `s` (simplified to
sign and decimal digits; `int` rejects a decimal point). -/
def pyIntParses (s : String) : Bool :=
  let l := stripSign s.data
  !l.isEmpty && l.all Char.isDigit

/-- True when Python's `float(s)` succeeds on the string `s` (simplified
to sign, decimal digits and at most one decimal point with at least one
digit overall). -/
def pyFloatParses (s : String) : Bool :=
  let l := stripSign s.data
  match l.splitOn '.' with
  | [ds] => !ds.isEmpty && ds.all Char.isDigit
  | [i, f] => i.all Char.isDigit && f.all Char.isDigit && !(i.isEmpty && f.isEmpty)
  | _ => false

/-- The `datatype` argument of `_cast_value`: either `float` or `int`. -/
inductive DataType where
  | dfloat
  | dint
deriving DecidableEq, Repr

/-- The `datatype.__name__` used in the error message. -/
def dtName : DataType → String
  | .dfloat => "float"
  | .dint => "int"

/-- Whether `datatype(value)` succeeds. -/
def pyParses : DataType → String → Bool
  | .dfloat, s => pyFloatParses s
  | .dint, s => pyIntParses s

/-- The value `datatype(raw)` produces on success. -/
def dtVal : DataType → String → CastVal
  | .dfloat, s => .vFloat s
  | .dint, s => .vInt s

/-- The numeric cast a field type triggers in `_format_value`: `float`
for float- and Decimal-typed fields, `int` for int-typed fields, none for
the rest. -/
def numericCast : PyType → Option DataType
  | .tFloat => some .dfloat
  | .tDecimal => some .dfloat
  | .tInt => some .dint
  | .tString => none

/-- `SQLAMixin._cast_value`: cast `value` with `datatype`, raising
`BooleanParserException` when the conversion raises `ValueError`. -/
def cast_value (condName value : String) (datatype : DataType) : Except PyErr CastVal :=
  match datatype with
  | .dfloat =>
      if pyFloatParses value then .ok (.vFloat value)
      else .error (.badValue condName "float" value)
  | .dint =>
      if pyIntParses value then .ok (.vInt value)
      else .error (.badValue condName "int" value)

/-- `SQLAMixin._format_value`: float- and Decimal-typed fields cast the
value to `float`, int-typed fields cast to `int`, anything else passes the
value through and lower-cases the field. -/
def format_value (condName value : String) (fieldtype : PyType) (field : BoundExpr) :
    Except PyErr (CastVal × BoundExpr) :=
  match fieldtype with
  | .tFloat => (cast_value condName value .dfloat).map (fun v => (v, field))
  | .tDecimal => (cast_value condName value .dfloat).map (fun v => (v, field))
  | .tInt => (cast_value condName value .dint).map (fun v => (v, field))
  | .tString => .ok (.vStr value, .funcLower field)

/-- Membership of the field type in the `ftypes = [float, int, decimal.Decimal]`
list of `_bind_and_lower_value`. -/
def isNumericType : PyType → Bool
  | .tFloat => true
  | .tInt => true
  | .tDecimal => true
  | .tString => false

/-- `SQLAMixin._bind_and_lower_value`: format the value (and `value2` when
present), bind each to its parameter name, and lower-case the bound value
for non-numeric field types.  When `value2` is present the source
reassigns `self.bindname` to `fullname_2` before binding the second value.
Returns `(lower_field, lower_value, lower_value_2)`. -/
def bind_and_lower_value (c : Cond) (fieldtype : PyType) (field : BoundExpr) :
    Except PyErr (BoundExpr × BoundExpr × Option BoundExpr) :=
  match format_value c.name c.value fieldtype field with
  | .error e => .error e
  | .ok fv =>
    match c.value2 with
    | none =>
        let boundvalue := BoundExpr.bindparam c.bindname fv.1
        let lower_value := if isNumericType fieldtype then boundvalue else .funcLower boundvalue
        .ok (fv.2, lower_value, none)
    | some v2 =>
        match format_value c.name v2 fieldtype field with
        | .error e => .error e
        | .ok fv2 =>
            let boundvalue := BoundExpr.bindparam c.bindname fv.1
            let lower_value := if isNumericType fieldtype then boundvalue else .funcLower boundvalue
            let boundvalue2 := BoundExpr.bindparam (c.fullname ++ "_2") fv2.1
            let lower_value_2 := if isNumericType fieldtype then boundvalue2 else .funcLower boundvalue2
            .ok (fv2.2, lower_value, some lower_value_2)

/-- Lookup of `getattr(model, field_name, None)` restricted to the model's
columns: the first column with the given name, packaged as an instrumented
attribute. -/
def lookupField (m : Model) (field_name : String) : Option FieldH :=
  match m.fields.find? (fun p => p.1 == field_name) with
  | some p => some ⟨m.tablename, field_name, p.2⟩
  | none => none

/-- Helper for `strContains`: true when `p` begins the list `s`. -/
def leadsWith : List Char → List Char → Bool
  | [], _ => true
  | _ :: _, [] => false
  | a :: p, b :: s => a == b && leadsWith p s

/-- Helper for `strContains`: true when `needle` occurs contiguously in
the list. -/
def subOccurs (needle : List Char) : List Char → Bool
  | [] => needle.isEmpty
  | c :: t => leadsWith needle (c :: t) || subOccurs needle t

/-- Python's substring operator `needle in hay` on strings. -/
def strContains (hay needle : String) : Bool :=
  subOccurs needle.data hay.data

/-- `SQLAMixin._get_field`: with a dotted qualifier, the attribute is
returned only when `base_name in modelclass.__tablename__` — Python
SUBSTRING containment, not equality; without a qualifier, plain lookup. -/
def get_field (m : Model) (field_name : String) (base_name : Option String) : Option FieldH :=
  match base_name with
  | some b => if strContains m.tablename b then lookupField m field_name else none
  | none => lookupField m field_name

/-- The `for model in models` loop of `SQLAMixin.filter`: walk the models
in order, breaking at the first whose lookup yields an instrumented
attribute; after the loop `model` and `field` hold the last iteration's
values.  On an empty list the loop body never runs and reading `field`
raises `UnboundLocalError`. -/
def find_field_loop (c : Cond) : List Model → Except PyErr (Model × Option FieldH)
  | [] => .error (.nameError "field")
  | [m] => .ok (m, get_field m c.name c.base)
  | m :: m2 :: rest =>
      match get_field m c.name c.base with
      | some f => .ok (m, some f)
      | none => find_field_loop c (m2 :: rest)

/-- `SQLAMixin._filter_one`: with no field, hand back the incoming
`condition`; with a field, compute `_bind_and_lower_value` (which may
raise) and then — as the source does — return the incoming `condition`
unchanged, discarding the bound field and values. -/
def filter_one (c : Cond) (field : Option FieldH) (condition : SQLPred) :
    Except PyErr SQLPred :=
  match field with
  | none => .ok condition
  | some f => (bind_and_lower_value c f.ftype (.col f.table f.fname)).map (fun _ => condition)

/-- The body of `SQLAMixin.filter` after `_check_models`: resolve the
field over the model list, raise `BooleanParserException` naming the last
tried table and the field when none was found, else build the leaf's
condition via `_filter_one` (with the initial `condition = None`). -/
def filter_models (c : Cond) (models : List Model) : Except PyErr SQLPred :=
  match find_field_loop c models with
  | .error e => .error e
  | .ok (model, none) => .error (.unresolvedField model.tablename c.name)
  | .ok (_, some f) => filter_one c (some f) SQLPred.noneV

/-- An entry of the model list handed to (or built by) `_check_models`:
either a SQLAlchemy `DeclarativeMeta` model class, or some other Python
object (identified by a tag) that fails the `isinstance(m, DeclarativeMeta)`
check. -/
inductive Entry where
  | modelE (m : Model)
  | otherE (tag : String)
deriving DecidableEq, Repr

/-- The `isinstance(m, DeclarativeMeta)` test of `_check_models`. -/
def entryIsModel : Entry → Bool
  | .modelE _ => true
  | .otherE _ => false

/-- A member of a module, as seen by `inspect.getmembers` in
`_check_models`: a DeclarativeMeta class with a `__tablename__`, a
DeclarativeMeta class without one, a non-DeclarativeMeta class with or
without a `__tablename__`, or a non-class member. -/
inductive Member where
  | classModel (m : Model)
  | modelNoTable (m : Model)
  | classWithTable (tag : String)
  | classNoTable (tag : String)
  | nonClass (tag : String)
deriving DecidableEq, Repr

/-- The `inspect.isclass(member)` test. -/
def memberIsClass : Member → Bool
  | .classModel _ => true
  | .modelNoTable _ => true
  | .classWithTable _ => true
  | .classNoTable _ => true
  | .nonClass _ => false

/-- The `hasattr(member, '__tablename__')` test. -/
def memberHasTablename : Member → Bool
  | .classModel _ => true
  | .modelNoTable _ => false
  | .classWithTable _ => true
  | .classNoTable _ => false
  | .nonClass _ => false

/-- The object a collected member contributes to the model list. -/
def memberEntry : Member → Entry
  | .classModel m => .modelE m
  | .modelNoTable m => .modelE m
  | .classWithTable tag => .otherE tag
  | .classNoTable tag => .otherE tag
  | .nonClass tag => .otherE tag

/-- The module branch of `_check_models`: keep exactly the members that
are classes carrying a `__tablename__`. -/
def collectModule : List Member → List Entry
  | [] => []
  | mem :: rest =>
      if memberIsClass mem && memberHasTablename mem then
        memberEntry mem :: collectModule rest
      else
        collectModule rest

/-- The shapes `_check_models` accepts: a module namespace, a
list (or tuple) of entries, or a single entry. -/
inductive ModelsInput where
  | module (members : List Member)
  | listI (entries : List Entry)
  | single (e : Entry)
deriving DecidableEq, Repr

/-- The message of the `assert allmeta is True` failure. -/
def assertModelsMsg : String :=
  "All input classes must be of type SQLAlchemy ModelClasses"

/-- `SQLAMixin._check_models`: normalize the input into a flat list of
entries (module members with a table name / the list itself / a singleton)
and assert every entry is a DeclarativeMeta model class. -/
def check_models (classes : ModelsInput) : Except PyErr (List Entry) :=
  let models := match classes with
    | .module ms => collectModule ms
    | .listI es => es
    | .single e => [e]
  if models.all entryIsModel then .ok models
  else .error (.assertionError assertModelsMsg)

/-- Extract the model classes from a checked entry list (after
`_check_models` succeeds every entry is a model). -/
def entriesToModels (es : List Entry) : List Model :=
  es.filterMap (fun e => match e with | .modelE m => some m | .otherE _ => none)

/-- `SQLAMixin.filter` for a leaf condition: `assert modelclass is not
None`, normalize via `_check_models`, then resolve and translate over the
model list. -/
def filter (c : Cond) (modelclass : Option ModelsInput) : Except PyErr SQLPred :=
  match modelclass with
  | none => .error (.assertionError "No input found")
  | some classes =>
      match check_models classes with
      | .error e => .error e
      | .ok es => filter_models c (entriesToModels es)

/-- The parsed condition tree over the SQLAlchemy mixin classes: a leaf is
a `SQLACondition`, the combinators are `SQLANot`, `SQLAAnd` (child list in
order) and `SQLAOr`. -/
inductive SQLATree where
  | leaf (c : Cond)
  | notT (t : SQLATree)
  | andT (ts : List SQLATree)
  | orT (ts : List SQLATree)

mutual

/-- `filter` over the tree: a leaf translates itself; `SQLANot.filter`
wraps `not_` around its child's result; `SQLAAnd.filter` / `SQLAOr.filter`
translate every child against the same `modelclass` argument, in order,
and wrap the list in `and_` / `or_`. -/
def treeFilter : SQLATree → Option ModelsInput → Except PyErr SQLPred
  | .leaf c, arg => filter c arg
  | .notT t, arg => (treeFilter t arg).map SQLPred.notP
  | .andT ts, arg => (treeFilterList ts arg).map SQLPred.andP
  | .orT ts, arg => (treeFilterList ts arg).map SQLPred.orP

/-- The `[condition.filter(modelclass) for condition in self.conditions]`
comprehension: children translated left to right, the first exception
propagating. -/
def treeFilterList : List SQLATree → Option ModelsInput → Except PyErr (List SQLPred)
  | [], _ => .ok []
  | t :: ts, arg =>
      match treeFilter t arg with
      | .error e => .error e
      | .ok p =>
          match treeFilterList ts arg with
          | .error e => .error e
          | .ok ps => .ok (p :: ps)

end

/-- Modelled from the spec: the `params` store read by
`_bind_parameter_names` is not defined in this adapter's source (it lives
with the upstream parser state) — per the spec it is the "transient
per-expression parameter-naming counter scoped to one translation call",
a dict mapping each fullname to the latest value.  Only its key list
matters for naming; dict keys are unique, so updating an existing key
leaves the key list unchanged. -/
def dictUpdateKeys (keys : List String) (k : String) : List String :=
  if keys.contains k then keys else keys ++ [k]

/-- `SQLAMixin._bind_parameter_names` acting on the key list of `params`:
a fullname not yet present binds under the fullname itself; a fullname
already present binds under `fullname_count` where `count` is
`list(params.keys()).count(fullname)`.  Returns the updated key list and
the `self.bindname` assigned. -/
def bind_parameter_names (keys : List String) (fullname : String) :
    List String × String :=
  if keys.contains fullname then
    (dictUpdateKeys keys fullname, fullname ++ "_" ++ toString (keys.count fullname))
  else
    (dictUpdateKeys keys fullname, fullname)

/-- Thread `_bind_parameter_names` over the successive leaf fullnames of
one expression, starting from the given key list, returning the bindnames
assigned in order. -/
def bindSeqAux (keys : List String) : List String → List String
  | [] => []
  | fn :: rest =>
      ((bind_parameter_names keys fn).2) :: bindSeqAux (bind_parameter_names keys fn).1 rest

/-- The bindnames assigned to an expression's leaves (given by fullname,
in leaf order) starting from the empty per-expression `params`. -/
def bindSeq (fullnames : List String) : List String :=
  bindSeqAux [] fullnames

/-! Helper lemmas shared by the claim theorems. -/

/-- A `leadsWith` check succeeds exactly when the needle begins the list. -/
theorem leadsWith_iff (p s : List Char) :
    leadsWith p s = true ↔ ∃ r, s = p ++ r := by
  induction p generalizing s with
  | nil => simp [leadsWith]
  | cons a p ih =>
    cases s with
    | nil => simp [leadsWith]
    | cons b s =>
      simp only [leadsWith, Bool.and_eq_true, beq_iff_eq, ih, List.cons_append,
        List.cons.injEq]
      constructor
      · rintro ⟨rfl, r, rfl⟩
        exact ⟨r, rfl, rfl⟩
      · rintro ⟨r, rfl, rfl⟩
        exact ⟨rfl, r, rfl⟩

/-- A `subOccurs` check succeeds exactly when the needle occurs
contiguously in the list. -/
theorem subOccurs_iff (p s : List Char) :
    subOccurs p s = true ↔ ∃ l r, s = l ++ p ++ r := by
  induction s with
  | nil =>
    simp only [subOccurs, List.isEmpty_iff]
    constructor
    · rintro rfl
      exact ⟨[], [], rfl⟩
    · rintro ⟨l, r, h⟩
      rcases List.append_eq_nil.mp h.symm with ⟨h1, h2⟩
      exact (List.append_eq_nil.mp h1).2
  | cons c t ih =>
    simp only [subOccurs, Bool.or_eq_true, leadsWith_iff, ih]
    constructor
    · rintro (⟨r, hr⟩ | ⟨l, r, hr⟩)
      · exact ⟨[], r, by simp [hr]⟩
      · exact ⟨c :: l, r, by simp [hr]⟩
    · rintro ⟨l, r, hr⟩
      cases l with
      | nil => exact Or.inl ⟨r, by simpa using hr⟩
      | cons x l =>
        rcases List.cons.injEq .. ▸ hr with ⟨-, ht⟩
        exact Or.inr ⟨l, r, by simpa using ht⟩

/-- `strContains hay needle` is Python's substring containment. -/
theorem strContains_iff (hay needle : String) :
    strContains hay needle = true ↔ ∃ l r, hay.data = l ++ needle.data ++ r := by
  exact subOccurs_iff needle.data hay.data

/-- Every error `_format_value` raises is the `BooleanParserException`
of `_cast_value`, naming the condition's field. -/
theorem format_value_errors (n v : String) (fty : PyType) (fld : BoundExpr) (e : PyErr)
    (h : format_value n v fty fld = .error e) :
    ∃ d w, e = PyErr.badValue n d w := by
  cases fty with
  | tFloat =>
    by_cases hp : pyFloatParses v <;> simp [format_value, cast_value, hp, Except.map] at h
    exact ⟨"float", v, h.symm⟩
  | tDecimal =>
    by_cases hp : pyFloatParses v <;> simp [format_value, cast_value, hp, Except.map] at h
    exact ⟨"float", v, h.symm⟩
  | tInt =>
    by_cases hp : pyIntParses v <;> simp [format_value, cast_value, hp, Except.map] at h
    exact ⟨"int", v, h.symm⟩
  | tString => simp [format_value] at h

/-- Every error `_bind_and_lower_value` raises comes from a failed value
conversion: a `BooleanParserException` naming the condition's field. -/
theorem bind_errors_are_badValue (c : Cond) (fty : PyType) (fld : BoundExpr) (e : PyErr)
    (h : bind_and_lower_value c fty fld = .error e) :
    ∃ d w, e = PyErr.badValue c.name d w := by
  unfold bind_and_lower_value at h
  split at h
  · rename_i e1 heq
    injection h with h1
    exact h1 ▸ format_value_errors _ _ _ _ _ heq
  · rename_i fv heq
    split at h
    · simp at h
    · split at h
      · rename_i e2 heq2
        injection h with h2
        exact h2 ▸ format_value_errors _ _ _ _ _ heq2
      · simp at h

/-- When every model's lookup fails, the loop runs to the end and leaves
`field = None` and `model` the last model. -/
theorem find_loop_all_none (c : Cond) (models : List Model) (h : models ≠ [])
    (hall : ∀ m ∈ models, get_field m c.name c.base = none) :
    find_field_loop c models = .ok (models.getLast h, none) := by
  induction models with
  | nil => exact absurd rfl h
  | cons m rest ih =>
    cases rest with
    | nil =>
      simp [find_field_loop, hall m (by simp), List.getLast]
    | cons m2 rest2 =>
      have hm : get_field m c.name c.base = none := hall m (by simp)
      have hne : m2 :: rest2 ≠ ([] : List Model) := by simp
      have step : find_field_loop c (m :: m2 :: rest2) = find_field_loop c (m2 :: rest2) := by
        simp [find_field_loop, hm]
      rw [step, ih hne (fun m' hm' => hall m' (List.mem_cons_of_mem m hm'))]
      rw [List.getLast_cons hne]

/-- When some model's lookup succeeds, the loop breaks with an
instrumented attribute in hand. -/
theorem find_loop_finds (c : Cond) (models : List Model)
    (h : ∃ m ∈ models, get_field m c.name c.base ≠ none) :
    ∃ m' f, find_field_loop c models = .ok (m', some f) := by
  induction models with
  | nil => simp at h
  | cons m rest ih =>
    cases hm : get_field m c.name c.base with
    | some f =>
      cases rest with
      | nil => exact ⟨m, f, by simp [find_field_loop, hm]⟩
      | cons m2 rest2 => exact ⟨m, f, by simp [find_field_loop, hm]⟩
    | none =>
      have hr : ∃ m' ∈ rest, get_field m' c.name c.base ≠ none := by
        rcases h with ⟨m', hmem, hne⟩
        rcases List.mem_cons.mp hmem with rfl | hmem'
        · exact absurd hm hne
        · exact ⟨m', hmem', hne⟩
      rcases ih hr with ⟨m', f, hf⟩
      cases rest with
      | nil => simp at hr
      | cons m2 rest2 =>
        refine ⟨m', f, ?_⟩
        simpa [find_field_loop, hm] using hf

/-- Reduction of `filter` over models when the loop found no field. -/
theorem filter_models_unresolved (c : Cond) (models : List Model) (m : Model)
    (hf : find_field_loop c models = .ok (m, none)) :
    filter_models c models = .error (.unresolvedField m.tablename c.name) := by
  simp [filter_models, hf]

/-- Reduction of `filter` over models when the loop found a field. -/
theorem filter_models_found (c : Cond) (models : List Model) (m : Model) (f : FieldH)
    (hf : find_field_loop c models = .ok (m, some f)) :
    filter_models c models = filter_one c (some f) SQLPred.noneV := by
  simp [filter_models, hf]

/-- For a numeric field type, `_bind_and_lower_value` casts the value
(and `value2` when present) with the field's cast, raising the
`BooleanParserException` of `_cast_value` on the first failing conversion,
and binds the values without lower-casing. -/
theorem bind_numeric_cases (c : Cond) (fty : PyType) (fld : BoundExpr) (dt : DataType)
    (hdt : numericCast fty = some dt) :
    bind_and_lower_value c fty fld =
      if pyParses dt c.value = false then .error (.badValue c.name (dtName dt) c.value)
      else
        match c.value2 with
        | some v2 =>
            if pyParses dt v2 = false then .error (.badValue c.name (dtName dt) v2)
            else .ok (fld, .bindparam c.bindname (dtVal dt c.value),
                      some (.bindparam (c.fullname ++ "_2") (dtVal dt v2)))
        | none => .ok (fld, .bindparam c.bindname (dtVal dt c.value), none) := by
  have hnum : isNumericType fty = true := by
    cases fty <;> simp [numericCast] at hdt ⊢ <;> simp [isNumericType]
  have hfmt : ∀ v : String, format_value c.name v fty fld =
      if pyParses dt v = false then .error (.badValue c.name (dtName dt) v)
      else .ok (dtVal dt v, fld) := by
    intro v
    cases fty with
    | tFloat =>
      cases hdt
      by_cases hp : pyFloatParses v <;>
        simp [format_value, cast_value, pyParses, dtVal, dtName, hp, Except.map]
    | tDecimal =>
      cases hdt
      by_cases hp : pyFloatParses v <;>
        simp [format_value, cast_value, pyParses, dtVal, dtName, hp, Except.map]
    | tInt =>
      cases hdt
      by_cases hp : pyIntParses v <;>
        simp [format_value, cast_value, pyParses, dtVal, dtName, hp, Except.map]
    | tString => simp [numericCast] at hdt
  by_cases hv : pyParses dt c.value = false
  · simp [bind_and_lower_value, hfmt c.value, hv]
  · cases hv2 : c.value2 with
    | none =>
      simp [bind_and_lower_value, hfmt c.value, hv, hv2, hnum]
    | some v2 =>
      by_cases hw : pyParses dt v2 = false <;>
        simp [bind_and_lower_value, hfmt c.value, hfmt v2, hv, hv2, hw, hnum]

/-- `_check_models` accepts a plain list of model classes unchanged. -/
theorem check_models_map_modelE (models : List Model) :
    check_models (.listI (models.map .modelE)) = .ok (models.map .modelE) := by
  have : (models.map Entry.modelE).all entryIsModel = true := by
    induction models with
    | nil => rfl
    | cons m r ih => simp only [List.map_cons, List.all_cons, entryIsModel, ih, Bool.and_self]
  simp [check_models, this]

/-- Extracting the models back out of a checked plain list is the
identity. -/
theorem entriesToModels_map_modelE (models : List Model) :
    entriesToModels (models.map .modelE) = models := by
  induction models with
  | nil => rfl
  | cons m r ih => simpa [entriesToModels] using ih

/-- `filter` on a plain model-class list reduces to the loop body. -/
theorem filter_listI (c : Cond) (models : List Model) :
    filter c (some (.listI (models.map .modelE))) = filter_models c models := by
  simp [filter, check_models_map_modelE, entriesToModels_map_modelE]

/-! Claim theorems. -/

/-- Claim C1 (code bug): the spec says a leaf's `filter` returns a single
bound predicate applying the leaf's operator to the resolved field and the
bound value, but the code's `_filter_one` discards the prepared field and
bound values and returns the incoming `condition`, which is `None`: on a
fully resolvable leaf (`name = 'Alice'` against a schema `user` exposing a
string field `name`) `filter` returns `None` and no comparison predicate is
ever constructed (`opdict` is never consulted). -/
theorem c1_leaf_filter_emits_no_predicate :
    filter
        { name := "name", base := none, op := "=", value := "Alice", value2 := none,
          bindname := "name" }
        (some (.single (.modelE { tablename := "user", fields := [("name", PyType.tString)] })))
      = .ok SQLPred.noneV := by
  rfl

/-- Claim C10: calling the leaf `filter` entry operation with a `None`
schema-set argument fails immediately with the plain assertion failure
`'No input found'`, whatever the leaf is, and that failure is not a
`BooleanParserException` (not one of the two typed parser error kinds). -/
theorem c10_none_schema_plain_assertion (c : Cond) :
    filter c none = .error (.assertionError "No input found")
    ∧ PyErr.isBooleanParserException (.assertionError "No input found") = false :=
  ⟨rfl, rfl⟩

/-- Claim C4 (code bug): the spec says each bound value receives a distinct
parameter name derived from the fullname plus an occurrence counter, but the
counter is `list(params.keys()).count(fullname)` over a dict whose keys are
unique, so it is always `1` once the fullname is present: three leaves on
the same field `x` receive bindnames `x`, `x_1`, `x_1` — the second and
third collide. -/
theorem c4_bindname_collision_at_third_occurrence :
    bindSeq ["x", "x", "x"] = ["x", "x_1", "x_1"]
    ∧ ¬ (bindSeq ["x", "x", "x"]).Nodup := by
  exact ⟨rfl, by decide⟩

/-- Claim C7 counterexample: with a dotted field name, `_get_field` tests
`base_name in modelclass.__tablename__` — Python substring containment —
so the qualifier `par` resolves against the table `parent` and the field
handle is returned even though the qualifier does not equal the schema's
table identifier. -/
theorem c7_counterexample_substring_qualifier :
    get_field { tablename := "parent", fields := [("name", PyType.tString)] } "name"
        (some "par")
      = some { table := "parent", fname := "name", ftype := PyType.tString }
    ∧ ("par" : String) ≠ "parent" := by
  exact ⟨rfl, by decide⟩

/-- Claim C7 as amended: for a dotted field name, `_get_field` returns the
schema's field handle exactly when the qualifier is a contiguous substring
of the schema's table identifier and the schema exposes the field; in
every other case it indicates absence. -/
theorem c7_qualifier_substring_match (m : Model) (field_name b : String) (f : FieldH) :
    get_field m field_name (some b) = some f
    ↔ (∃ l r, m.tablename.data = l ++ b.data ++ r) ∧ lookupField m field_name = some f := by
  have hdef : get_field m field_name (some b)
      = if strContains m.tablename b then lookupField m field_name else none := rfl
  rw [hdef]
  by_cases hc : strContains m.tablename b = true
  · rw [if_pos hc]
    exact ⟨fun h => ⟨(strContains_iff m.tablename b).mp hc, h⟩, fun h => h.2⟩
  · rw [if_neg hc]
    constructor
    · intro h
      exact absurd h (by simp)
    · intro h
      exact absurd ((strContains_iff m.tablename b).mpr h.1) hc

/-- Claim C8: for a leaf on a non-numeric field, `_bind_and_lower_value`
wraps both the field and each bound parameter value in `func.lower`, and
the literal value itself is bound unconverted (as the original string);
when a second value is present it is bound, also lower-cased, under the
`fullname_2` parameter name. -/
theorem c8_non_numeric_lowercases_field_and_value (c : Cond) (fld : BoundExpr) :
    bind_and_lower_value c .tString fld =
      .ok (.funcLower fld,
           .funcLower (.bindparam c.bindname (.vStr c.value)),
           c.value2.map (fun v2 => .funcLower (.bindparam (c.fullname ++ "_2") (.vStr v2)))) := by
  cases hv2 : c.value2 <;>
    simp [bind_and_lower_value, format_value, isNumericType, hv2]

/-- Claim C2 counterexample: with an empty (but well-typed) schema list,
every field name is exposed by no schema, yet `filter` does not raise a
`BooleanParserException`: the model loop never runs, so reading `field`
after it raises an untyped `UnboundLocalError`. -/
theorem c2_counterexample_empty_schema_set :
    filter { name := "x", base := none, op := "=", value := "1", value2 := none, bindname := "x" }
        (some (.listI []))
      = .error (.nameError "field")
    ∧ PyErr.isBooleanParserException (.nameError "field") = false := by
  exact ⟨rfl, rfl⟩

/-- Claim C2 as amended: over a NONEMPTY schema list, `filter` raises the
unresolved-field `BooleanParserException` (naming the field, and the last
table tried) exactly when no schema in the list exposes the leaf's field
name. -/
theorem c2_unresolved_field_iff (c : Cond) (models : List Model) (h : models ≠ []) :
    filter c (some (.listI (models.map .modelE)))
        = .error (.unresolvedField (models.getLast h).tablename c.name)
    ↔ ∀ m ∈ models, get_field m c.name c.base = none := by
  rw [filter_listI]
  constructor
  · intro heq
    by_contra hnot
    push_neg at hnot
    rcases hnot with ⟨m, hmem, hne⟩
    rcases find_loop_finds c models ⟨m, hmem, hne⟩ with ⟨m', f, hf⟩
    rw [filter_models_found c models m' f hf] at heq
    cases hb : bind_and_lower_value c f.ftype (.col f.table f.fname) with
    | ok r => simp [filter_one, hb, Except.map] at heq
    | error e =>
      rcases bind_errors_are_badValue c f.ftype (.col f.table f.fname) e hb with ⟨d, w, rfl⟩
      simp [filter_one, hb, Except.map] at heq
  · intro hall
    exact filter_models_unresolved c models (models.getLast h)
      (find_loop_all_none c models h hall)

/-- Claim C2 witness: a leaf on `age` against the single schema `user`
exposing only `name` raises the unresolved-field error naming `age`. -/
theorem c2_witness :
    filter { name := "age", base := none, op := "<", value := "3", value2 := none,
             bindname := "age" }
        (some (.listI ([{ tablename := "user", fields := [("name", PyType.tString)] }].map
          Entry.modelE)))
      = .error (.unresolvedField "user" "age") := by
  have h := (c2_unresolved_field_iff
    { name := "age", base := none, op := "<", value := "3", value2 := none, bindname := "age" }
    [{ tablename := "user", fields := [("name", PyType.tString)] }]
    (by simp)).mpr (by
      intro m hm
      rw [List.mem_singleton] at hm
      subst hm
      rfl)
  exact h

/-- Claim C3: for a leaf resolved to a numeric field, translation casts
the literal (and the secondary value when present) to the field's declared
numeric cast — `float` for float- and Decimal-typed fields, `int` for
int-typed fields — and raises the typed invalid-numeric-value
`BooleanParserException` exactly when that conversion fails, naming the
field, the expected type and the offending literal; when every conversion
succeeds no error is raised. -/
theorem c3_numeric_coercion_error_iff (c : Cond) (models : List Model) (m : Model)
    (f : FieldH) (dt : DataType)
    (hf : find_field_loop c models = .ok (m, some f))
    (hdt : numericCast f.ftype = some dt) :
    filter_models c models =
      if pyParses dt c.value = false then .error (.badValue c.name (dtName dt) c.value)
      else
        match c.value2 with
        | some v2 =>
            if pyParses dt v2 = false then .error (.badValue c.name (dtName dt) v2)
            else .ok SQLPred.noneV
        | none => .ok SQLPred.noneV := by
  rw [filter_models_found c models m f hf]
  simp only [filter_one]
  rw [bind_numeric_cases c f.ftype (.col f.table f.fname) dt hdt]
  by_cases hv : pyParses dt c.value = false
  · simp [hv, Except.map]
  · cases hv2 : c.value2 with
    | none => simp [hv, hv2, Except.map]
    | some v2 =>
      by_cases hw : pyParses dt v2 = false <;> simp [hv, hv2, hw, Except.map]

/-- Claim C3 witness: the leaf `age < 'abc'` against the schema `user`
with an int-typed `age` raises the invalid-numeric-value error for an
`int` cast of `'abc'`. -/
theorem c3_witness :
    filter_models
        { name := "age", base := none, op := "<", value := "abc", value2 := none,
          bindname := "age" }
        [{ tablename := "user", fields := [("age", PyType.tInt)] }]
      = .error (.badValue "age" "int" "abc") := by
  have h := c3_numeric_coercion_error_iff
    { name := "age", base := none, op := "<", value := "abc", value2 := none, bindname := "age" }
    [{ tablename := "user", fields := [("age", PyType.tInt)] }]
    { tablename := "user", fields := [("age", PyType.tInt)] }
    { table := "user", fname := "age", ftype := PyType.tInt }
    DataType.dint rfl rfl
  exact h.trans (by rfl)

/-- A successful child comprehension has one result per child, in order:
the i-th result is the i-th child's `filter` output. -/
theorem treeFilterList_ok_spec (ts : List SQLATree) (arg : Option ModelsInput)
    (ps : List SQLPred) (h : treeFilterList ts arg = .ok ps) :
    ps.length = ts.length
    ∧ ∀ i (hi : i < ts.length) (hp : i < ps.length),
        treeFilter (ts.get ⟨i, hi⟩) arg = .ok (ps.get ⟨i, hp⟩) := by
  induction ts generalizing ps with
  | nil =>
    simp only [treeFilterList] at h
    injection h with h'
    subst h'
    exact ⟨rfl, fun i hi => by simp at hi⟩
  | cons t ts ih =>
    cases ht : treeFilter t arg with
    | error e => simp [treeFilterList, ht] at h
    | ok p =>
      cases hts : treeFilterList ts arg with
      | error e => simp [treeFilterList, ht, hts] at h
      | ok ps' =>
        simp only [treeFilterList, ht, hts] at h
        injection h with h'
        subst h'
        rcases ih ps' hts with ⟨hlen, hpt⟩
        refine ⟨by simp [hlen], ?_⟩
        intro i hi hp
        cases i with
        | zero => simpa using ht
        | succ j =>
          simp only [List.get_cons_succ]
          exact hpt j (by simpa using hi) (by simpa using hp)

/-- Claim C5: when every child of an AND (resp. OR) node translates
successfully against a schema-set argument, the node's `filter` emits
`and_` (resp. `or_`) of exactly the children's predicates — same count
and same order, each child resolved against the same argument. -/
theorem c5_and_or_preserve_children (ts : List SQLATree) (arg : Option ModelsInput)
    (ps : List SQLPred) (h : treeFilterList ts arg = .ok ps) :
    treeFilter (.andT ts) arg = .ok (.andP ps)
    ∧ treeFilter (.orT ts) arg = .ok (.orP ps)
    ∧ ps.length = ts.length
    ∧ ∀ i (hi : i < ts.length) (hp : i < ps.length),
        treeFilter (ts.get ⟨i, hi⟩) arg = .ok (ps.get ⟨i, hp⟩) := by
  rcases treeFilterList_ok_spec ts arg ps h with ⟨hlen, hpt⟩
  refine ⟨?_, ?_, hlen, hpt⟩
  · simp [treeFilter, h, Except.map]
  · simp [treeFilter, h, Except.map]

/-- Claim C5 witness: an AND and an OR of two resolvable leaves emit the
two children's predicates in order. -/
theorem c5_witness :
    treeFilter
        (.andT [.leaf { name := "name", base := none, op := "=", value := "a", value2 := none,
                        bindname := "name" },
                .leaf { name := "name", base := none, op := "=", value := "b", value2 := none,
                        bindname := "name_1" }])
        (some (.single (.modelE { tablename := "user", fields := [("name", PyType.tString)] })))
      = .ok (.andP [SQLPred.noneV, SQLPred.noneV])
    ∧ treeFilter
        (.orT [.leaf { name := "name", base := none, op := "=", value := "a", value2 := none,
                       bindname := "name" },
               .leaf { name := "name", base := none, op := "=", value := "b", value2 := none,
                       bindname := "name_1" }])
        (some (.single (.modelE { tablename := "user", fields := [("name", PyType.tString)] })))
      = .ok (.orP [SQLPred.noneV, SQLPred.noneV]) := by
  have h := c5_and_or_preserve_children
    [.leaf { name := "name", base := none, op := "=", value := "a", value2 := none,
             bindname := "name" },
     .leaf { name := "name", base := none, op := "=", value := "b", value2 := none,
             bindname := "name_1" }]
    (some (.single (.modelE { tablename := "user", fields := [("name", PyType.tString)] })))
    [SQLPred.noneV, SQLPred.noneV]
    rfl
  exact ⟨h.1, h.2.1⟩

/-- Claim C6: resolution walks the supplied schemas in order and binds the
leaf to the field of the first schema whose lookup (name plus qualifier)
succeeds; the schemas after it — even ones that also contain the field —
are never consulted, and the leaf's translation is built from exactly that
one field. -/
theorem c6_first_schema_wins (c : Cond) (pre post : List Model) (m : Model) (f : FieldH)
    (hpre : ∀ m' ∈ pre, get_field m' c.name c.base = none)
    (hm : get_field m c.name c.base = some f) :
    find_field_loop c (pre ++ m :: post) = .ok (m, some f)
    ∧ filter_models c (pre ++ m :: post) = filter_one c (some f) SQLPred.noneV := by
  have hfind : find_field_loop c (pre ++ m :: post) = .ok (m, some f) := by
    induction pre with
    | nil =>
      cases post with
      | nil => simp [find_field_loop, hm]
      | cons p2 r2 => simp [find_field_loop, hm]
    | cons q qre ih =>
      have hq : get_field q c.name c.base = none := hpre q (by simp)
      have ih' := ih (fun m' hm' => hpre m' (List.mem_cons_of_mem q hm'))
      rw [List.cons_append]
      cases hqre : qre ++ m :: post with
      | nil => simp at hqre
      | cons a b =>
        rw [hqre] at ih'
        simp only [find_field_loop, hq]
        exact ih'
  exact ⟨hfind, filter_models_found c (pre ++ m :: post) m f hfind⟩

/-- Claim C6 witness: with schemas `address` (no `name` field), `user` and
`account` (both exposing `name`), the leaf binds to `user.name`; `account`
is never used. -/
theorem c6_witness :
    find_field_loop
        { name := "name", base := none, op := "=", value := "a", value2 := none,
          bindname := "name" }
        ([{ tablename := "address", fields := [("city", PyType.tString)] }]
          ++ { tablename := "user", fields := [("name", PyType.tString)] }
            :: [{ tablename := "account", fields := [("name", PyType.tString)] }])
      = .ok ({ tablename := "user", fields := [("name", PyType.tString)] },
             some { table := "user", fname := "name", ftype := PyType.tString })
    ∧ filter_models
        { name := "name", base := none, op := "=", value := "a", value2 := none,
          bindname := "name" }
        ([{ tablename := "address", fields := [("city", PyType.tString)] }]
          ++ { tablename := "user", fields := [("name", PyType.tString)] }
            :: [{ tablename := "account", fields := [("name", PyType.tString)] }])
      = filter_one
          { name := "name", base := none, op := "=", value := "a", value2 := none,
            bindname := "name" }
          (some { table := "user", fname := "name", ftype := PyType.tString })
          SQLPred.noneV := by
  exact c6_first_schema_wins
    { name := "name", base := none, op := "=", value := "a", value2 := none,
      bindname := "name" }
    [{ tablename := "address", fields := [("city", PyType.tString)] }]
    [{ tablename := "account", fields := [("name", PyType.tString)] }]
    { tablename := "user", fields := [("name", PyType.tString)] }
    { table := "user", fname := "name", ftype := PyType.tString }
    (by
      intro m' hm'
      rw [List.mem_singleton] at hm'
      subst hm'
      rfl)
    rfl

/-- Claim C9: `_check_models` normalizes each accepted shape into a flat
entry list — a single schema becomes a singleton, a list/tuple is taken as
is, and a module namespace contributes exactly its members that are
classes exposing a `__tablename__` — and it fails (with the assertion
message) precisely when some resulting entry is not a DeclarativeMeta
schema type. -/
theorem c9_check_models_normalizes (e : Entry) (es : List Entry) (ms : List Member) :
    (check_models (.single e)
      = if entryIsModel e then .ok [e] else .error (.assertionError assertModelsMsg))
    ∧ (check_models (.listI es)
      = if es.all entryIsModel then .ok es else .error (.assertionError assertModelsMsg))
    ∧ (collectModule ms
      = (ms.filter (fun mem => memberIsClass mem && memberHasTablename mem)).map memberEntry)
    ∧ (check_models (.module ms)
      = if (collectModule ms).all entryIsModel then .ok (collectModule ms)
        else .error (.assertionError assertModelsMsg))
    ∧ (check_models (.listI es) = .error (.assertionError assertModelsMsg)
      ↔ ∃ en ∈ es, entryIsModel en = false) := by
  refine ⟨?_, rfl, ?_, rfl, ?_⟩
  · cases he : entryIsModel e <;> simp [check_models, he]
  · induction ms with
    | nil => rfl
    | cons mem rest ih =>
      cases mem <;>
        simp [collectModule, memberIsClass, memberHasTablename, memberEntry, ih]
  · constructor
    · intro herr
      by_contra hnone
      push_neg at hnone
      have hall : es.all entryIsModel = true := by
        rw [List.all_eq_true]
        intro x hx
        have hne := hnone x hx
        cases hxx : entryIsModel x
        · exact absurd hxx hne
        · rfl
      simp [check_models, hall] at herr
    · rintro ⟨en, hen, hfalse⟩
      have hall : es.all entryIsModel = false := by
        cases hall : es.all entryIsModel
        · rfl
        · rw [List.all_eq_true] at hall
          exact absurd (hall en hen) (by simp [hfalse])
      simp [check_models, hall]

end BooleanParser
